import Mathlib

/-!
Shallow embedding of the workflow subsystem of a generative-media backend
(`src/backend/src/workflows/workflow_service.py` and its data model in
`src/backend/src/workflows/schema/`).  The embedding covers:

* the JSON-ish value universe manipulated by the service (`JValue`),
* the typed step-input values of the pydantic step models (`IValue`),
* the workflow compiler `_generate_workflow_yaml` and its inner
  `resolve_value`,
* the execution-trace reconstructor of `get_execution_details`,
* the lazy run-status reconciliation block of `get_execution_details`,
* the create / delete / execute / batch-execute lifecycle operations.

External effects (database rows, remote engine calls) are modelled by
explicit stores and outcome parameters; machine behaviour of Python
(`dict.get`, truthiness, `int()`, f-string rendering) is modelled by the
`py`-named helpers below.
-/

/-- JSON-like values as produced by `model_dump`, `json.loads` and the REST
step-entries API.  Objects keep field order (Python dicts preserve insertion
order); key lookup returns the first match, mirroring the unique-key dicts of
the source. -/
inductive JValue where
  | null : JValue
  | bool : Bool → JValue
  | int : Int → JValue
  | str : String → JValue
  | arr : List JValue → JValue
  | obj : List (String × JValue) → JValue

/-- `d.get(k)`-style lookup in an object field list (first match). -/
def lookupField (fs : List (String × JValue)) (k : String) : Option JValue :=
  (fs.find? (fun p => p.1 == k)).map (·.2)

/-- Python `str()` as used inside the compiler's f-strings.  Scalar cases are
exact; composite values are abstracted (the pydantic models only ever place
strings in the `step`/`output` fields that reach the f-strings). -/
def pyStr : JValue → String
  | .null => "None"
  | .bool true => "True"
  | .bool false => "False"
  | .int i => toString i
  | .str s => s
  | .arr _ => "<list>"
  | .obj _ => "<object>"

/-- Python truthiness of a JSON value (`if value:`). -/
def truthy : JValue → Bool
  | .null => false
  | .bool b => b
  | .int n => n != 0
  | .str s => !s.isEmpty
  | .arr l => !l.isEmpty
  | .obj fs => !fs.isEmpty

/-- Python `int(value)`: `none` models the `ValueError`/`TypeError` raised on
unconvertible values. -/
def pyInt : JValue → Option Int
  | .int n => some n
  | .bool b => some (if b then 1 else 0)
  | .str s => s.trim.toInt?
  | _ => none

/-- `value.get(k, dflt)` where `value` must be a dict; `none` models the
`AttributeError` raised when `value` is not a dict. -/
def pyDictGet (v : JValue) (k : String) (dflt : JValue) : Option JValue :=
  match v with
  | .obj fs => some ((lookupField fs k).getD dflt)
  | _ => none

/-- The step kinds of `NodeTypes` in `workflow_model.py`. -/
inductive NodeTypes where
  | user_input
  | generate_text
  | generate_image
  | edit_image
  | generate_video
  | crop_image
  | virtual_try_on
  | generate_audio
  deriving DecidableEq, Repr

/-- The string value of each `NodeTypes` member (already lowercase, so
`.value.lower()` in the source equals `.value`). -/
def NodeTypes.value : NodeTypes → String
  | .user_input => "user_input"
  | .generate_text => "generate_text"
  | .generate_image => "generate_image"
  | .edit_image => "edit_image"
  | .generate_video => "generate_video"
  | .crop_image => "crop_image"
  | .virtual_try_on => "virtual_try_on"
  | .generate_audio => "generate_audio"

/-- A typed step-input value as held by the rehydrated pydantic models:
either a `StepOutputReference` instance, a list, or any other (literal)
value — strings, ints, `None`, `ReferenceMediaOrAsset` objects — carried as
its JSON shape. -/
inductive IValue where
  | ref (step output : String)
  | lit (v : JValue)
  | list (items : List IValue)

mutual

/-- `model_dump` of a typed input value: a `StepOutputReference` becomes the
dict `{step: ..., output: ...}`; lists dump element-wise; literals keep their
JSON shape. -/
def dumpIValue : IValue → JValue
  | .ref s o => .obj [("step", .str s), ("output", .str o)]
  | .lit v => v
  | .list items => .arr (dumpIValueList items)

/-- Element-wise `model_dump` of a list of typed input values. -/
def dumpIValueList : List IValue → List JValue
  | [] => []
  | v :: rest => dumpIValue v :: dumpIValueList rest

end

/-- A workflow step as held by `WorkflowModel.steps`: id, kind, typed input
fields (in declaration order), declared outputs and settings.  The per-run
execution-state fields of `BaseStep` (`status`, `error`, `started_at`,
`completed_at`) are constant in templates and are not consulted by any of the
operations embedded here, so they are omitted. -/
structure Step where
  step_id : String
  type : NodeTypes
  inputs : List (String × IValue)
  outputs : List (String × JValue)
  settings : List (String × JValue)

namespace Compiler

/-- The `ref_step_id == user_input_step_id` comparison of `resolve_value`:
the looked-up `step` field (an arbitrary JSON value in general) equals the
optional user-input step id only when it is that very string. -/
def stepMatchesUserInput (uid : Option String) (vs : JValue) : Bool :=
  match vs, uid with
  | .str s, some u => s == u
  | _, _ => false

mutual

/-- `resolve_value` of `_generate_workflow_yaml` (lines 112–127): a dict with
both a `step` and an `output` key is a step-output reference and is rewritten
to a workflow-engine expression (`args.<output>` for the user-input step,
`<step>_result.body.<output>` otherwise); a list resolves element-wise; any
other value passes through unchanged. -/
def resolve_value (uid : Option String) : JValue → JValue
  | .obj fs =>
      match lookupField fs "step", lookupField fs "output" with
      | some vs, some vo =>
          if stepMatchesUserInput uid vs then
            .str ("$\x7bargs." ++ pyStr vo ++ "\x7d")
          else
            .str ("$\x7b" ++ pyStr vs ++ "_result.body." ++ pyStr vo ++ "\x7d")
      | _, _ => .obj fs
  | .arr l => .arr (resolve_list uid l)
  | .null => .null
  | .bool b => .bool b
  | .int i => .int i
  | .str s => .str s

/-- Element-wise resolution of a list value. -/
def resolve_list (uid : Option String) : List JValue → List JValue
  | [] => []
  | v :: rest => resolve_value uid v :: resolve_list uid rest

end

/-- One emitted call step of the compiled definition (the dict built at
lines 138–150 of `workflow_service.py`). -/
structure GcpStep where
  name : String
  url : String
  auth_header : String
  body_workspace_id : String
  body_inputs : List (String × JValue)
  body_config : List (String × JValue)
  result : String

/-- Emission of one non-user-input step: HTTP POST to the executor at a path
derived from the step kind, the auth header and workspace id propagated from
the `args` parameter bag, inputs resolved field-wise, settings passed as
config, result captured under `<step_id>_result`. -/
def compile_step (executor_url : String) (uid : Option String) (st : Step) : GcpStep :=
  { name := st.step_id
    url := executor_url ++ "/" ++ st.type.value
    auth_header := "$\x7bargs.user_auth_header\x7d"
    body_workspace_id := "$\x7bargs.workspace_id\x7d"
    body_inputs := st.inputs.map (fun p => (p.1, resolve_value uid (dumpIValue p.2)))
    body_config := st.settings
    result := st.step_id ++ "_result" }

/-- The step loop of `_generate_workflow_yaml` (lines 93–157): a `user_input`
step records its id (overwriting any previous one) and appends its output
names to the parameter accumulator, emitting no call; every other step is
emitted with references resolved against the user-input id seen so far. -/
def compile_steps (executor_url : String) :
    Option String → List String → List GcpStep → List Step →
    Option String × List String × List GcpStep
  | uid, params, acc, [] => (uid, params, acc)
  | uid, params, acc, st :: rest =>
      if st.type = .user_input then
        compile_steps executor_url (some st.step_id)
          (params ++ st.outputs.map (·.1)) acc rest
      else
        compile_steps executor_url uid params
          (acc ++ [compile_step executor_url uid st]) rest

/-- The compiled remote workflow definition.  `workflow_params` is the
accumulator initialised to `["user_auth_header"]` at line 90; `main_params`
is the parameter list actually written into the emitted definition, the
literal `["args"]` of line 159. -/
structure CompiledWorkflow where
  workflow_params : List String
  main_params : List String
  steps : List GcpStep

/-- `_generate_workflow_yaml` up to the final `yaml.dump` serialisation: the
structured content of the emitted definition. -/
def generate_workflow_yaml (executor_url : String) (steps : List Step) : CompiledWorkflow :=
  let r := compile_steps executor_url none ["user_auth_header"] [] steps
  { workflow_params := r.2.1
    main_params := ["args"]
    steps := r.2.2 }

end Compiler

/-- An ISO-rendered point in time; `iso` is the value of `.isoformat()`. -/
structure Timestamp where
  iso : String
  deriving DecidableEq, Repr

/-- The remote execution states of `executions_v1.Execution.State`. -/
inductive ExecutionState where
  | state_unspecified
  | active
  | succeeded
  | failed
  | cancelled
  | unavailable
  | queued
  deriving DecidableEq, Repr

/-- The local run states of `WorkflowRunStatusEnum`. -/
inductive WorkflowRunStatusEnum where
  | running
  | completed
  | failed
  | canceled
  | scheduled
  deriving DecidableEq, Repr

/-- The remote execution record as read back by `get_execution_details`:
state, the parsed argument blob (`json.loads(execution.argument)`, `none`
when the argument is absent/empty, in which case the source substitutes
`{}`), and start/end times. -/
structure ExecutionRecord where
  state : ExecutionState
  argument : Option JValue
  start_time : Option Timestamp
  end_time : Option Timestamp

/-- One raw step-log entry from the `stepEntries` REST call, with the fields
the reconstructor reads via `entry.get(...)` (each `none` when absent). -/
structure StepEntry where
  step : Option String
  state : Option String
  variableData : Option JValue
  createTime : Option String
  updateTime : Option String

/-- One reconstructed trace entry (the dicts appended to
`formatted_step_entries`). -/
structure FormattedEntry where
  step_id : String
  state : Option String
  step_inputs : List (String × JValue)
  step_outputs : JValue
  start_time : Option String
  end_time : Option String

namespace Trace

mutual

/-- `resolve_value` of `get_execution_details` (lines 608–614): a
`StepOutputReference` instance is looked up in the accumulated
`previous_outputs` map — an absent step defaults to `{}` and an absent output
name to `None`; lists resolve element-wise; anything else is returned as-is.
The outer `none` models the `AttributeError` raised when a step's recorded
outputs are not a dict. -/
def resolve_value (env : List (String × JValue)) : IValue → Option JValue
  | .ref s o =>
      match (lookupField env s).getD (.obj []) with
      | .obj fs => some ((lookupField fs o).getD .null)
      | _ => none
  | .lit v => some v
  | .list items => (resolve_list env items).map .arr

/-- Element-wise resolution of a list input. -/
def resolve_list (env : List (String × JValue)) : List IValue → Option (List JValue)
  | [] => some []
  | v :: rest =>
      match resolve_value env v, resolve_list env rest with
      | some r, some rs => some (r :: rs)
      | _, _ => none

end

/-- Resolution of all declared input fields of a step definition
(lines 629–631), in field order. -/
def resolve_inputs (env : List (String × JValue)) :
    List (String × IValue) → Option (List (String × JValue))
  | [] => some []
  | (n, v) :: rest =>
      match resolve_value env v, resolve_inputs env rest with
      | some r, some rs => some ((n, r) :: rs)
      | _, _ => none

/-- Output extraction of lines 634–637:
`entry.get("variableData", {}).get("variables", {}).get(f"<sid>_result", {}).get("body", {})`;
`none` models the `AttributeError` raised when an intermediate value is not a
dict. -/
def step_outputs_of (e : StepEntry) (sid : String) : Option JValue :=
  match pyDictGet (e.variableData.getD (.obj [])) "variables" (.obj []) with
  | none => none
  | some vars =>
      match pyDictGet vars (sid ++ "_result") (.obj []) with
      | none => none
      | some step_results => pyDictGet step_results "body" (.obj [])

/-- `next((step for step in workflow_model.steps if step.step_id == step_id), None)`. -/
def find_step (steps : List Step) (sid : String) : Option Step :=
  steps.find? (fun st => st.step_id == sid)

/-- The entry loop of `get_execution_details` (lines 616–649).  Entries whose
`step` is the `"end"` sentinel or matches no step definition are skipped and
leave the accumulated outputs map untouched.  A kept entry resolves its
step's declared inputs against the map as accumulated so far, then merges its
own extracted outputs into the map for subsequent entries.  `none` models an
uncaught exception during resolution/extraction. -/
def process_entries (steps : List Step) :
    List (String × JValue) → List StepEntry →
    Option (List FormattedEntry × List (String × JValue))
  | env, [] => some ([], env)
  | env, e :: rest =>
      match e.step with
      | none => process_entries steps env rest
      | some sid =>
          if sid = "end" then process_entries steps env rest
          else
            match find_step steps sid with
            | none => process_entries steps env rest
            | some current_step =>
                match resolve_inputs env current_step.inputs with
                | none => none
                | some step_inputs =>
                    match step_outputs_of e sid with
                    | none => none
                    | some step_outputs =>
                        match process_entries steps ((sid, step_outputs) :: env) rest with
                        | none => none
                        | some (restF, envF) =>
                            some ({ step_id := sid
                                    state := e.state
                                    step_inputs := step_inputs
                                    step_outputs := step_outputs
                                    start_time := e.createTime
                                    end_time := e.updateTime } :: restF, envF)

/-- The trace-building tail of `get_execution_details` (lines 585–649): the
first (virtual) entry is synthesised for the workflow's first step from the
execution's argument blob and start time, the outputs map is seeded with that
blob under the first step's id, and the real log entries are folded in trace
order.  `none` models the `IndexError` on an empty step list
(`workflow_model.steps[0]`) or an uncaught exception in the loop. -/
def get_execution_trace (wf_steps : List Step) (exec : ExecutionRecord)
    (entries : List StepEntry) : Option (List FormattedEntry) :=
  match wf_steps with
  | [] => none
  | s0 :: _ =>
      let user_input_step_id := s0.step_id
      let user_inputs := exec.argument.getD (.obj [])
      let virtual : FormattedEntry :=
        { step_id := user_input_step_id
          state := some "STATE_SUCCEEDED"
          step_inputs := []
          step_outputs := user_inputs
          start_time := exec.start_time.map Timestamp.iso
          end_time := exec.start_time.map Timestamp.iso }
      match process_entries wf_steps [(user_input_step_id, user_inputs)] entries with
      | none => none
      | some (restF, _) => some (virtual :: restF)

end Trace

namespace Reconcile

/-- The terminal-state mapping of the lazy status update (lines 563–570):
`SUCCEEDED → completed`, `FAILED → failed`, `CANCELLED → canceled`, every
other remote state maps to no local status. -/
def final_status_for : ExecutionState → Option WorkflowRunStatusEnum
  | .succeeded => some .completed
  | .failed => some .failed
  | .cancelled => some .canceled
  | _ => none

/-- The fields of a `WorkflowRun` row touched by reconciliation. -/
structure RunRow where
  id : String
  status : WorkflowRunStatusEnum
  completed_at : Option Timestamp
  deriving DecidableEq, Repr

/-- The lazy status-update block of `get_execution_details` (lines 560–583):
when the locally recorded status is still `running` and the remote state maps
to a terminal status, the row's status is overwritten and `completed_at` is
set to the execution's end time (or `now` when the end time is absent).  The
boolean records whether a status write was performed. -/
def lazy_status_update (run : RunRow) (exec_state : ExecutionState)
    (end_time : Option Timestamp) (now : Timestamp) : RunRow × Bool :=
  if run.status = .running then
    match final_status_for exec_state with
    | some fs => ({ run with status := fs, completed_at := some (end_time.getD now) }, true)
    | none => (run, false)
  else (run, false)

end Reconcile

namespace Lifecycle

/-- A persisted `Workflow` row (the fields set by `create_workflow`). -/
structure WfRow where
  id : String
  user_id : Int
  name : String
  description : Option String
  steps : List Step

/-- `WorkflowCreateDto`: the client-supplied definition. -/
structure WorkflowCreateDto where
  name : String
  description : Option String
  steps : List Step

/-- Modelled from the spec: the persistence repositories are thin CRUD
wrappers over a relational store (`src/common/base_repository.py` is not in
the sources); `create` appends a row. -/
def repo_create (store : List WfRow) (w : WfRow) : List WfRow :=
  store ++ [w]

/-- Modelled from the spec: repository `delete` removes the row with the
given id and reports whether one existed. -/
def repo_delete (store : List WfRow) (wid : String) : List WfRow × Bool :=
  (store.filter (fun w => !(w.id == wid)), store.any (fun w => w.id == wid))

/-- `create_workflow` (lines 228–266), with the remote registration outcome
as a parameter: the row is persisted first; if registering the compiled
definition with the remote engine fails, the local row is deleted again
(compensating rollback) and the error is re-raised.  The returned pair is
(final local store, result-or-raised-error). -/
def create_workflow (gcp_create : Except String Unit) (store : List WfRow)
    (workflow_id : String) (dto : WorkflowCreateDto) (user_id : Int) :
    List WfRow × Except String WfRow :=
  let created : WfRow :=
    { id := workflow_id, user_id := user_id, name := dto.name
      description := dto.description, steps := dto.steps }
  let store1 := repo_create store created
  match gcp_create with
  | .ok _ => (store1, .ok created)
  | .error e => ((repo_delete store1 workflow_id).1, .error e)

/-- The remote deregistration outcome seen by `_delete_gcp_workflow`. -/
inductive GcpDeleteResult where
  | ok (resp : String)
  | notFound
  | failure (e : String)

/-- `_delete_gcp_workflow` (lines 207–226): a `NotFound` from the remote
engine is caught, logged and turned into a `None` success; any other error
propagates. -/
def delete_gcp_workflow : GcpDeleteResult → Except String (Option String)
  | .ok r => .ok (some r)
  | .notFound => .ok none
  | .failure e => .error e

/-- `delete_by_id` (lines 309–314): deregister remotely first, then delete
the local row.  A propagating remote error leaves the local store untouched. -/
def delete_by_id (remote : GcpDeleteResult) (store : List WfRow)
    (workflow_id : String) : List WfRow × Except String Bool :=
  match delete_gcp_workflow remote with
  | .error e => (store, .error e)
  | .ok _ =>
      let r := repo_delete store workflow_id
      (r.1, .ok r.2)

end Lifecycle

namespace Execute

/-- The pydantic `WorkflowModel`: `name`, `description`, `steps`, `user_id`
from `WorkflowBase`/`WorkflowModel`, plus the `id` and `created_at`/
`updated_at` fields contributed by `BaseStringDocument`.  Modelled from the
spec: `src/common/base_repository.py` is not in the sources; its document
base carries the string id and the volatile created/updated timestamps that
`_create_execution_snapshot` explicitly keeps resp. excludes. -/
structure WorkflowModelP where
  id : String
  user_id : Int
  name : String
  description : Option String
  steps : List Step
  created_at : Option Timestamp
  updated_at : Option Timestamp

/-- JSON rendering of an optional timestamp field under `mode='json'`. -/
def dump_timestamp : Option Timestamp → JValue
  | some t => .str t.iso
  | none => .null

/-- `model_dump(mode='json')` of one step. -/
def dump_step (st : Step) : JValue :=
  .obj [("step_id", .str st.step_id),
        ("type", .str st.type.value),
        ("outputs", .obj st.outputs),
        ("inputs", .obj (st.inputs.map (fun p => (p.1, dumpIValue p.2)))),
        ("settings", .obj st.settings)]

/-- `snapshot.model_dump(mode='json', ...)`: the serialized workflow, with
the two volatile timestamp fields present exactly when they are not
excluded. -/
def workflow_model_dump (exclude_ts : Bool) (wf : WorkflowModelP) : List (String × JValue) :=
  [("id", .str wf.id)]
  ++ (if exclude_ts then []
      else [("created_at", dump_timestamp wf.created_at),
            ("updated_at", dump_timestamp wf.updated_at)])
  ++ [("name", .str wf.name),
      ("description", match wf.description with | some d => .str d | none => .null),
      ("steps", .arr (wf.steps.map dump_step)),
      ("user_id", .int wf.user_id)]

/-- Removal of a set of keys from a serialized object (what an
`exclude={...}` set does to a dump). -/
def exclude_keys (ks : List String) (fs : List (String × JValue)) : List (String × JValue) :=
  fs.filter (fun p => !(ks.contains p.1))

/-- A persisted `WorkflowRun` row as created by `_create_execution_snapshot`. -/
structure WorkflowRunRow where
  id : String
  workflow_id : String
  user_id : Int
  workspace_id : Option Int
  status : WorkflowRunStatusEnum
  started_at : Timestamp
  completed_at : Option Timestamp
  workflow_snapshot : List (String × JValue)

/-- The `workspace_id` coercion of `execute_workflow` (lines 344–350): a
truthy value is passed through `int(...)`, with a conversion failure caught
and replaced by `None`.  A falsy raw value is passed through unchanged in
Python and then rejected by the run model's `Optional[int]` validation (a
failure swallowed by the snapshot guard); that path is folded into `none`
here. -/
def snapshot_workspace_id (args : List (String × JValue)) : Option Int :=
  match lookupField args "workspace_id" with
  | none => none
  | some v => if truthy v then pyInt v else none

/-- `execute_workflow` (lines 316–378) after the remote execution has been
triggered successfully, with the snapshot-write outcome as a parameter: the
remote execution id is returned either way; when the best-effort snapshot
write succeeds, the stored row carries the running status, the trigger time
and the timestamp-free serialized workflow copy. -/
def execute_workflow (wf : WorkflowModelP) (args : List (String × JValue))
    (user_id : Int) (execution_id : String) (snapshot_write_fails : Bool)
    (now : Timestamp) : String × Option WorkflowRunRow :=
  let run : WorkflowRunRow :=
    { id := execution_id
      workflow_id := wf.id
      user_id := user_id
      workspace_id := snapshot_workspace_id args
      status := .running
      started_at := now
      completed_at := none
      workflow_snapshot := workflow_model_dump true wf }
  (execution_id, if snapshot_write_fails then none else some run)

end Execute

namespace Batch

/-- One row of a `BatchExecutionRequestDto`.  Modelled from the spec: the
batch DTO module is not in the sources; each item carries its declared row
index and an argument map (see the `item.row_index` / `item.args` uses in
`batch_execute_workflow`). -/
structure BatchItem where
  row_index : Int
  args : List (String × JValue)

/-- One per-row result (`BatchItemResultDto`).  Modelled from the spec: the
DTO module is not in the sources; the fields are those populated at the
`BatchItemResultDto(...)` call sites. -/
structure BatchItemResultDto where
  row_index : Int
  execution_id : Option String
  status : String
  error : Option String

/-- The per-row external outcomes of `batch_execute_workflow`: the
asset-ingestion service result for a URI value, and the
execution-triggering result for a processed argument map. -/
structure BatchEnv where
  ingest : JValue → Except String Int
  execute : List (String × JValue) → Except String String

/-- `isinstance(value, str) and value.startswith("gs://")`. -/
def is_gcs_string : JValue → Bool
  | .str s => s.startsWith "gs://"
  | _ => false

/-- A non-empty list whose first element is a `gs://` string. -/
def is_gcs_list : JValue → Bool
  | .arr (v0 :: _) => is_gcs_string v0
  | _ => false

/-- `ingest_gcs_uri`: materialize one URI into an owned asset and return the
`ReferenceImage`-compatible dict `{sourceAssetId, previewUrl}`. -/
def ingest_gcs_uri (env : BatchEnv) (uri : JValue) : Except String JValue :=
  match env.ingest uri with
  | .ok aid => .ok (.obj [("sourceAssetId", .int aid), ("previewUrl", uri)])
  | .error e => .error e

/-- Element-wise ingestion of a URI list. -/
def ingest_gcs_list (env : BatchEnv) : List JValue → Except String (List JValue)
  | [] => .ok []
  | v :: rest =>
      match ingest_gcs_uri env v with
      | .error e => .error e
      | .ok j =>
          match ingest_gcs_list env rest with
          | .error e => .error e
          | .ok js => .ok (j :: js)

/-- Python truthiness of an optional value (`if not workspace_id`). -/
def opt_truthy : Option JValue → Bool
  | none => false
  | some v => truthy v

/-- The body of the inner `try` of `process_row` (lines 422–434): require a
truthy workspace id, convert it with `int(...)`, then ingest the single URI
or every element of the URI list. -/
def ingest_arg (env : BatchEnv) (workspace_id : Option JValue) (v : JValue) :
    Except String JValue :=
  if !(opt_truthy workspace_id) then
    .error "No workspace_id provided for GCS ingestion."
  else
    match pyInt (workspace_id.getD .null) with
    | none => .error "invalid literal for int() with base 10"
    | some _ =>
        match v with
        | .arr items =>
            match ingest_gcs_list env items with
            | .ok js => .ok (.arr js)
            | .error e => .error e
        | u => ingest_gcs_uri env u

/-- Processing of one argument entry (lines 412–442): URI-shaped values go
through guarded ingestion, with any ingestion-side failure wrapped into the
per-row `Invalid GCS URI in <key>` message; every other value passes through
unchanged. -/
def process_one_arg (env : BatchEnv) (workspace_id : Option JValue)
    (k : String) (v : JValue) : Except String JValue :=
  if is_gcs_string v || is_gcs_list v then
    match ingest_arg env workspace_id v with
    | .ok j => .ok j
    | .error e => .error ("Invalid GCS URI in \x27" ++ k ++ "\x27: " ++ e)
  else .ok v

/-- The argument loop of `process_row`, in argument order, with the row's
`workspace_id` looked up once up front. -/
def process_args (env : BatchEnv) (workspace_id : Option JValue) :
    List (String × JValue) → Except String (List (String × JValue))
  | [] => .ok []
  | (k, v) :: rest =>
      match process_one_arg env workspace_id k v with
      | .error e => .error e
      | .ok j =>
          match process_args env workspace_id rest with
          | .error e => .error e
          | .ok js => .ok ((k, j) :: js)

/-- `process_row` (lines 396–462): argument processing and execution
triggering for one row, with every failure captured as a `FAILED` result for
that row only. -/
def process_row (env : BatchEnv) (item : BatchItem) : BatchItemResultDto :=
  match process_args env (lookupField item.args "workspace_id") item.args with
  | .error msg =>
      { row_index := item.row_index, execution_id := none
        status := "FAILED", error := some msg }
  | .ok pargs =>
      match env.execute pargs with
      | .ok eid =>
          { row_index := item.row_index, execution_id := some eid
            status := "SUCCESS", error := none }
      | .error e =>
          { row_index := item.row_index, execution_id := none
            status := "FAILED", error := some e }

/-- `batch_execute_workflow` (lines 380–467): every row is processed, and
`asyncio.gather` returns the results in the order of the input rows. -/
def batch_execute_workflow (env : BatchEnv) (items : List BatchItem) :
    List BatchItemResultDto :=
  items.map (process_row env)

end Batch

theorem compiler_resolve_list_eq_map (uid : Option String) (l : List JValue) :
    Compiler.resolve_list uid l = l.map (Compiler.resolve_value uid) := by
  induction l with
  | nil => rfl
  | cons v rest ih => simp [Compiler.resolve_list, ih]

theorem lookupField_eq_some (fs : List (String × JValue)) (k : String) (v : JValue)
    (h : lookupField fs k = some v) : ∃ p, p ∈ fs ∧ p.2 = v := by
  unfold lookupField at h
  cases hf : fs.find? (fun p => p.1 == k) with
  | none => rw [hf] at h; simp at h
  | some q =>
      rw [hf] at h
      simp at h
      exact ⟨q, List.mem_of_find?_eq_some hf, h⟩

/-- Claim C1: in the compiler, reference resolution as applied to every input
field of every emitted (non-user-input) step is the recursive map that sends
a step-output-reference to the user-input step to the parameter expression
`args.<output>`, a step-output-reference to any other step to
`<ref_step_id>_result.body.<output>`, a list to its element-wise resolution
in order, and any other value (media references and ordinary objects
included) to itself. -/
theorem claim_C1 (uid : Option String) :
    (∀ fs s vo, lookupField fs "step" = some (.str s) →
      lookupField fs "output" = some vo →
      Compiler.resolve_value uid (.obj fs) =
        (if some s = uid then JValue.str ("$\x7bargs." ++ pyStr vo ++ "\x7d")
         else JValue.str ("$\x7b" ++ s ++ "_result.body." ++ pyStr vo ++ "\x7d")))
  ∧ (∀ l, Compiler.resolve_value uid (.arr l) = .arr (l.map (Compiler.resolve_value uid)))
  ∧ (∀ fs, (lookupField fs "step").isSome = false ∨ (lookupField fs "output").isSome = false →
      Compiler.resolve_value uid (.obj fs) = .obj fs)
  ∧ (∀ v : JValue, (∀ fs, v ≠ .obj fs) → (∀ l, v ≠ .arr l) →
      Compiler.resolve_value uid v = v)
  ∧ (∀ executor_url uid0 params acc st rest, st.type ≠ NodeTypes.user_input →
      Compiler.compile_steps executor_url uid0 params acc (st :: rest) =
        Compiler.compile_steps executor_url uid0 params
          (acc ++ [Compiler.compile_step executor_url uid0 st]) rest)
  ∧ (∀ executor_url uid0 st,
      (Compiler.compile_step executor_url uid0 st).body_inputs =
        st.inputs.map (fun p => (p.1, Compiler.resolve_value uid0 (dumpIValue p.2)))) := by
  refine ⟨?_, ?_, ?_, ?_, ?_, ?_⟩
  · intro fs s vo h1 h2
    simp only [Compiler.resolve_value, h1, h2]
    cases uid with
    | none => simp [Compiler.stepMatchesUserInput, pyStr]
    | some u =>
        by_cases hsu : s = u
        · subst hsu
          simp [Compiler.stepMatchesUserInput]
        · simp [Compiler.stepMatchesUserInput, hsu, pyStr]
  · intro l
    simp [Compiler.resolve_value, compiler_resolve_list_eq_map]
  · intro fs h
    cases hs : lookupField fs "step" with
    | none => simp [Compiler.resolve_value, hs]
    | some vs =>
        cases ho : lookupField fs "output" with
        | none => simp [Compiler.resolve_value, hs, ho]
        | some vo => rw [hs, ho] at h; simp at h
  · intro v hobj harr
    cases v with
    | obj fs => exact absurd rfl (hobj fs)
    | arr l => exact absurd rfl (harr l)
    | null => rfl
    | bool b => rfl
    | int i => rfl
    | str s => rfl
  · intro executor_url uid0 params acc st rest h
    simp [Compiler.compile_steps, h]
  · intro executor_url uid0 st
    rfl

theorem claim_C1_witness :
    Compiler.resolve_value (some "input")
        (.obj [("step", .str "s1"), ("output", .str "o")]) =
      .str ("$\x7b" ++ "s1" ++ "_result.body." ++ pyStr (.str "o") ++ "\x7d") := by
  have h := (claim_C1 (some "input")).1
    [("step", .str "s1"), ("output", .str "o")] "s1" (.str "o") rfl rfl
  rw [h, if_neg (by decide)]

theorem compiler_compile_steps_params_const (executor_url : String)
    (l : List Step) (h : ∀ st ∈ l, st.type ≠ NodeTypes.user_input) :
    ∀ uid params acc,
      (Compiler.compile_steps executor_url uid params acc l).2.1 = params := by
  induction l with
  | nil => intro uid params acc; rfl
  | cons st rest ih =>
      intro uid params acc
      have hst : st.type ≠ NodeTypes.user_input := h st (List.mem_cons_self st rest)
      rw [Compiler.compile_steps, if_neg hst]
      exact ih (fun s hs => h s (List.mem_cons_of_mem st hs)) uid params _

/-- Claim C2 counterexample: for a workflow whose first (and only) step is a
`user_input` step with outputs `a, b`, the parameter list written into the
compiled remote workflow definition is the single parameter bag `["args"]`,
not `[user_auth_header, a, b]` (the accumulated `workflow_params` list is
never written into the emitted definition). -/
theorem claim_C2_counterexample :
    (Compiler.generate_workflow_yaml "http://executor"
        [{ step_id := "input", type := .user_input, inputs := [],
           outputs := [("a", .null), ("b", .null)], settings := [] }]).main_params
      = ["args"]
  ∧ (["args"] : List String) ≠ ["user_auth_header", "a", "b"] := by
  exact ⟨rfl, by decide⟩

/-- Claim C2 (amended): for every Workflow whose first step is a `user_input`
step with declared outputs `a, b` and which contains no further `user_input`
step, the compiler's accumulated workflow parameter list is exactly
`[user_auth_header, a, b]` in that order (`user_auth_header` first, then the
user-input outputs in encounter order); the emitted remote definition itself
declares the single parameter bag `args`, through which these values are
addressed. -/
theorem claim_C2 (executor_url a b : String) (va vb : JValue)
    (u : Step) (rest : List Step)
    (hu : u.type = NodeTypes.user_input) (houts : u.outputs = [(a, va), (b, vb)])
    (hrest : ∀ st ∈ rest, st.type ≠ NodeTypes.user_input) :
    (Compiler.generate_workflow_yaml executor_url (u :: rest)).workflow_params
        = ["user_auth_header", a, b]
  ∧ (Compiler.generate_workflow_yaml executor_url (u :: rest)).main_params = ["args"] := by
  constructor
  · show (Compiler.compile_steps executor_url none ["user_auth_header"] [] (u :: rest)).2.1 = _
    rw [Compiler.compile_steps, if_pos hu, houts]
    rw [compiler_compile_steps_params_const executor_url rest hrest]
    rfl
  · rfl

theorem claim_C2_witness :
    (Compiler.generate_workflow_yaml "http://executor"
        [{ step_id := "input", type := .user_input, inputs := [],
           outputs := [("a", .null), ("b", .null)], settings := [] },
         { step_id := "t1", type := .generate_text,
           inputs := [("prompt", .ref "input" "a")], outputs := [], settings := [] }]).workflow_params
      = ["user_auth_header", "a", "b"] := by
  exact (claim_C2 "http://executor" "a" "b" .null .null
    { step_id := "input", type := .user_input, inputs := [],
      outputs := [("a", .null), ("b", .null)], settings := [] }
    [{ step_id := "t1", type := .generate_text,
       inputs := [("prompt", .ref "input" "a")], outputs := [], settings := [] }]
    rfl rfl (by intro st hst; simp at hst; subst hst; decide)).1

theorem trace_process_entries_append (steps : List Step) (l1 l2 : List StepEntry) :
    ∀ env, Trace.process_entries steps env (l1 ++ l2) =
      (Trace.process_entries steps env l1).bind (fun r1 =>
        (Trace.process_entries steps r1.2 l2).map (fun r2 => (r1.1 ++ r2.1, r2.2))) := by
  induction l1 with
  | nil =>
      intro env
      simp only [List.nil_append, Trace.process_entries, Option.some_bind]
      cases h : Trace.process_entries steps env l2 with
      | none => rfl
      | some p => simp
  | cons e rest ih =>
      intro env
      simp only [List.cons_append, Trace.process_entries]
      cases he : e.step with
      | none => exact ih env
      | some sid =>
          by_cases hsid : sid = "end"
          · simp only [if_pos hsid]
            exact ih env
          · simp only [if_neg hsid]
            cases hfind : Trace.find_step steps sid with
            | none => exact ih env
            | some current_step =>
                cases hres : Trace.resolve_inputs env current_step.inputs with
                | none => simp [hres]
                | some ins =>
                    cases hout : Trace.step_outputs_of e sid with
                    | none => simp [hres, hout]
                    | some outs =>
                        simp only [hres, hout, List.append_eq]
                        rw [ih ((sid, outs) :: env)]
                        cases hrest : Trace.process_entries steps ((sid, outs) :: env) rest with
                        | none => simp
                        | some r1 =>
                            cases hl2 : Trace.process_entries steps r1.2 l2 with
                            | none => simp [hl2]
                            | some r2 => simp [hl2]

theorem trace_get_execution_trace_eq (s0 : Step) (rest : List Step)
    (exec : ExecutionRecord) (entries : List StepEntry) :
    Trace.get_execution_trace (s0 :: rest) exec entries =
      match Trace.process_entries (s0 :: rest)
          [(s0.step_id, exec.argument.getD (.obj []))] entries with
      | none => none
      | some (restF, _) =>
          some ({ step_id := s0.step_id, state := some "STATE_SUCCEEDED",
                  step_inputs := [], step_outputs := exec.argument.getD (.obj []),
                  start_time := exec.start_time.map Timestamp.iso,
                  end_time := exec.start_time.map Timestamp.iso } :: restF) := rfl

/-- Claim C3: trace reconstruction processes the log entries strictly in
trace order against an accumulating `step_id → outputs` map: (i) processing
an appended log splits as processing of the first part from the seed map
followed by the second part from the map the first part accumulated, so each
entry's resolved inputs depend only on the map built from earlier entries;
(ii) a `"end"` sentinel entry and (iii) an entry matching no step in the
definition are excluded and leave the map untouched; (iv) a kept entry's
inputs are resolved against the map before its own outputs are merged; and
(v) the map is seeded with the user-input step's outputs (the execution
argument blob) and the virtual user-input entry is prepended. -/
theorem claim_C3 :
    (∀ (steps : List Step) env l1 l2,
      Trace.process_entries steps env (l1 ++ l2) =
        (Trace.process_entries steps env l1).bind (fun r1 =>
          (Trace.process_entries steps r1.2 l2).map (fun r2 => (r1.1 ++ r2.1, r2.2))))
  ∧ (∀ (steps : List Step) env e rest, e.step = some "end" →
      Trace.process_entries steps env (e :: rest) = Trace.process_entries steps env rest)
  ∧ (∀ (steps : List Step) env e rest sid, e.step = some sid → sid ≠ "end" →
      Trace.find_step steps sid = none →
      Trace.process_entries steps env (e :: rest) = Trace.process_entries steps env rest)
  ∧ (∀ (steps : List Step) env e sid current_step ins outs,
      e.step = some sid → sid ≠ "end" →
      Trace.find_step steps sid = some current_step →
      Trace.resolve_inputs env current_step.inputs = some ins →
      Trace.step_outputs_of e sid = some outs →
      Trace.process_entries steps env [e] =
        some ([{ step_id := sid, state := e.state, step_inputs := ins,
                 step_outputs := outs, start_time := e.createTime,
                 end_time := e.updateTime }], (sid, outs) :: env))
  ∧ (∀ (s0 : Step) rest exec entries r envF,
      Trace.process_entries (s0 :: rest)
          [(s0.step_id, exec.argument.getD (.obj []))] entries = some (r, envF) →
      Trace.get_execution_trace (s0 :: rest) exec entries =
        some ({ step_id := s0.step_id, state := some "STATE_SUCCEEDED",
                step_inputs := [], step_outputs := exec.argument.getD (.obj []),
                start_time := exec.start_time.map Timestamp.iso,
                end_time := exec.start_time.map Timestamp.iso } :: r)) := by
  refine ⟨fun steps env l1 l2 => trace_process_entries_append steps l1 l2 env,
    ?_, ?_, ?_, ?_⟩
  · intro steps env e rest he
    simp [Trace.process_entries, he]
  · intro steps env e rest sid he hsid hfind
    simp [Trace.process_entries, he, hsid, hfind]
  · intro steps env e sid current_step ins outs he hsid hfind hres hout
    simp [Trace.process_entries, he, hsid, hfind, hres, hout]
  · intro s0 rest exec entries r envF h
    rw [trace_get_execution_trace_eq, h]

theorem claim_C3_witness :
    Trace.process_entries
        [{ step_id := "t1", type := .generate_text,
           inputs := [("prompt", .ref "input" "a")], outputs := [], settings := [] }]
        [("input", .obj [("a", .str "hello")])]
        [{ step := some "t1", state := some "STATE_SUCCEEDED",
           variableData := some (.obj [("variables",
             .obj [("t1_result", .obj [("body", .obj [("text", .str "out")])])])]),
           createTime := some "T1", updateTime := some "T2" }] =
      some ([{ step_id := "t1", state := some "STATE_SUCCEEDED",
               step_inputs := [("prompt", .str "hello")],
               step_outputs := .obj [("text", .str "out")],
               start_time := some "T1", end_time := some "T2" }],
            [("t1", .obj [("text", .str "out")]),
             ("input", .obj [("a", .str "hello")])]) := by
  exact claim_C3.2.2.2.1
    [{ step_id := "t1", type := .generate_text,
       inputs := [("prompt", .ref "input" "a")], outputs := [], settings := [] }]
    [("input", .obj [("a", .str "hello")])]
    { step := some "t1", state := some "STATE_SUCCEEDED",
      variableData := some (.obj [("variables",
        .obj [("t1_result", .obj [("body", .obj [("text", .str "out")])])])]),
      createTime := some "T1", updateTime := some "T2" }
    "t1"
    { step_id := "t1", type := .generate_text,
      inputs := [("prompt", .ref "input" "a")], outputs := [], settings := [] }
    [("prompt", .str "hello")]
    (.obj [("text", .str "out")])
    rfl (by decide) rfl rfl rfl

/-- Claim C4: every trace returned by the reconstructor begins with the
synthesized entry for the (first, user-input) step: state
`"STATE_SUCCEEDED"`, outputs equal to the execution's parsed argument blob,
and start and end time both equal to the execution's start time — whatever
the real log entries contain. -/
theorem claim_C4 (s0 : Step) (rest : List Step) (exec : ExecutionRecord)
    (entries : List StepEntry) (t : List FormattedEntry)
    (h : Trace.get_execution_trace (s0 :: rest) exec entries = some t) :
    t.head? =
      some { step_id := s0.step_id, state := some "STATE_SUCCEEDED",
             step_inputs := [], step_outputs := exec.argument.getD (.obj []),
             start_time := exec.start_time.map Timestamp.iso,
             end_time := exec.start_time.map Timestamp.iso } := by
  rw [trace_get_execution_trace_eq] at h
  cases hp : Trace.process_entries (s0 :: rest)
      [(s0.step_id, exec.argument.getD (.obj []))] entries with
  | none => rw [hp] at h; cases h
  | some p =>
      rw [hp] at h
      cases h
      rfl

theorem claim_C4_witness :
    ([{ step_id := "input", state := some "STATE_SUCCEEDED", step_inputs := [],
        step_outputs := .obj [("x", .int 1)],
        start_time := some "T0", end_time := some "T0" }] : List FormattedEntry).head? =
      some { step_id := "input", state := some "STATE_SUCCEEDED", step_inputs := [],
             step_outputs := .obj [("x", .int 1)],
             start_time := some "T0", end_time := some "T0" } := by
  exact claim_C4
    { step_id := "input", type := .user_input, inputs := [], outputs := [], settings := [] }
    []
    { state := .succeeded, argument := some (.obj [("x", .int 1)]),
      start_time := some ⟨"T0"⟩, end_time := none }
    []
    [{ step_id := "input", state := some "STATE_SUCCEEDED", step_inputs := [],
       step_outputs := .obj [("x", .int 1)],
       start_time := some "T0", end_time := some "T0" }]
    rfl

mutual

theorem trace_resolve_value_isSome (env : List (String × JValue))
    (hwf : ∀ p ∈ env, ∃ fs, p.2 = JValue.obj fs) :
    ∀ v, (Trace.resolve_value env v).isSome = true
  | .ref s o => by
      simp only [Trace.resolve_value]
      cases hl : lookupField env s with
      | none => simp
      | some v =>
          obtain ⟨p, hp, hpv⟩ := lookupField_eq_some env s v hl
          obtain ⟨fs, hfs⟩ := hwf p hp
          have hv : v = JValue.obj fs := by rw [← hpv, hfs]
          subst hv
          simp
  | .lit v => by simp [Trace.resolve_value]
  | .list items => by
      have h := trace_resolve_list_isSome env hwf items
      simp only [Trace.resolve_value]
      cases hl : Trace.resolve_list env items with
      | none => rw [hl] at h; simp at h
      | some l => simp

theorem trace_resolve_list_isSome (env : List (String × JValue))
    (hwf : ∀ p ∈ env, ∃ fs, p.2 = JValue.obj fs) :
    ∀ l, (Trace.resolve_list env l).isSome = true
  | [] => by simp [Trace.resolve_list]
  | v :: rest => by
      have h1 := trace_resolve_value_isSome env hwf v
      have h2 := trace_resolve_list_isSome env hwf rest
      simp only [Trace.resolve_list]
      cases hv : Trace.resolve_value env v with
      | none => rw [hv] at h1; simp at h1
      | some r =>
          cases hr : Trace.resolve_list env rest with
          | none => rw [hr] at h2; simp at h2
          | some rs => simp

end

/-- Claim C10: resolving a step-output reference during trace reconstruction
never raises in the degraded cases: a reference to a step absent from the
accumulated outputs map resolves to `None`, a reference to a present step
whose recorded outputs lack the named output resolves to `None`, and over
any map whose recorded outputs are objects (as produced by the extraction
defaults) every input value resolves successfully, so a degraded trace entry
is still produced. -/
theorem claim_C10 :
    (∀ env s o, lookupField env s = none →
      Trace.resolve_value env (.ref s o) = some JValue.null)
  ∧ (∀ env s o fs, lookupField env s = some (.obj fs) → lookupField fs o = none →
      Trace.resolve_value env (.ref s o) = some JValue.null)
  ∧ (∀ env v, (∀ p ∈ env, ∃ fs, p.2 = JValue.obj fs) →
      (Trace.resolve_value env v).isSome = true) := by
  refine ⟨?_, ?_, fun env v hwf => trace_resolve_value_isSome env hwf v⟩
  · intro env s o h
    simp only [Trace.resolve_value]
    rw [h]
    simp [lookupField]
  · intro env s o fs h ho
    simp [Trace.resolve_value, h, ho]

theorem claim_C10_witness :
    Trace.resolve_value [] (.ref "upstream" "image") = some JValue.null :=
  claim_C10.1 [] "upstream" "image" rfl

/-- Claim C5: lazy reconciliation on trace-read.  The remote terminal states
map to the corresponding local statuses; when the locally recorded status is
`running` and the remote state is terminal, one reconciliation performs a
status write setting the mapped terminal status and a completion time, and a
second reconciliation of the resulting row performs no further write; no
write is performed when the local status is not `running` (in particular
when it is already terminal) or the remote state maps to no terminal
status. -/
theorem claim_C5 (run : Reconcile.RunRow) (s : ExecutionState)
    (end_time : Option Timestamp) (now now2 : Timestamp) :
    (Reconcile.final_status_for .succeeded = some .completed
      ∧ Reconcile.final_status_for .failed = some .failed
      ∧ Reconcile.final_status_for .cancelled = some .canceled)
  ∧ (∀ fs, run.status = .running → Reconcile.final_status_for s = some fs →
      (Reconcile.lazy_status_update run s end_time now).2 = true
      ∧ (Reconcile.lazy_status_update run s end_time now).1.status = fs
      ∧ ((Reconcile.lazy_status_update run s end_time now).1.completed_at).isSome = true
      ∧ Reconcile.lazy_status_update
          (Reconcile.lazy_status_update run s end_time now).1 s end_time now2 =
            ((Reconcile.lazy_status_update run s end_time now).1, false))
  ∧ (run.status ≠ .running →
      Reconcile.lazy_status_update run s end_time now = (run, false))
  ∧ (Reconcile.final_status_for s = none →
      Reconcile.lazy_status_update run s end_time now = (run, false)) := by
  refine ⟨⟨rfl, rfl, rfl⟩, ?_, ?_, ?_⟩
  · intro fs hrun hfs
    have hfs_ne : fs ≠ WorkflowRunStatusEnum.running := by
      cases s <;> simp [Reconcile.final_status_for] at hfs <;> subst hfs <;> decide
    refine ⟨?_, ?_, ?_, ?_⟩
    · simp [Reconcile.lazy_status_update, hrun, hfs]
    · simp [Reconcile.lazy_status_update, hrun, hfs]
    · simp [Reconcile.lazy_status_update, hrun, hfs]
    · simp [Reconcile.lazy_status_update, hrun, hfs, hfs_ne]
  · intro h
    simp [Reconcile.lazy_status_update, h]
  · intro h
    by_cases hr : run.status = WorkflowRunStatusEnum.running <;>
      simp [Reconcile.lazy_status_update, h, hr]

theorem claim_C5_witness :
    (Reconcile.lazy_status_update ⟨"e1", .running, none⟩ .failed none ⟨"T1"⟩).2 = true
  ∧ (Reconcile.lazy_status_update ⟨"e1", .running, none⟩ .failed none ⟨"T1"⟩).1.status = .failed
  ∧ ((Reconcile.lazy_status_update ⟨"e1", .running, none⟩ .failed none ⟨"T1"⟩).1.completed_at).isSome = true
  ∧ Reconcile.lazy_status_update
      (Reconcile.lazy_status_update ⟨"e1", .running, none⟩ .failed none ⟨"T1"⟩).1
        .failed none ⟨"T2"⟩ =
      ((Reconcile.lazy_status_update ⟨"e1", .running, none⟩ .failed none ⟨"T1"⟩).1, false) :=
  (claim_C5 ⟨"e1", .running, none⟩ .failed none ⟨"T1"⟩ ⟨"T2"⟩).2.1 .failed rfl rfl

/-- Claim C6: when remote registration fails after the local `Workflow` row
was persisted, `create_workflow` re-raises the registration error and its
final local store is the one obtained by the compensating delete of the
persisted row, so no local record with the created workflow's id remains. -/
theorem claim_C6 (store : List Lifecycle.WfRow) (workflow_id : String)
    (dto : Lifecycle.WorkflowCreateDto) (user_id : Int) (e : String) :
    (Lifecycle.create_workflow (.error e) store workflow_id dto user_id).2 = .error e
  ∧ (Lifecycle.create_workflow (.error e) store workflow_id dto user_id).1 =
      (Lifecycle.repo_delete
        (Lifecycle.repo_create store
          { id := workflow_id, user_id := user_id, name := dto.name,
            description := dto.description, steps := dto.steps }) workflow_id).1
  ∧ ((Lifecycle.create_workflow (.error e) store workflow_id dto user_id).1.all
      (fun w => !(w.id == workflow_id))) = true := by
  refine ⟨rfl, rfl, ?_⟩
  simp only [Lifecycle.create_workflow, Lifecycle.repo_delete, Lifecycle.repo_create]
  rw [List.all_eq_true]
  intro w hw
  exact (List.mem_filter.mp hw).2

theorem execute_dump_exclude (wf : Execute.WorkflowModelP) :
    Execute.workflow_model_dump true wf =
      Execute.exclude_keys ["created_at", "updated_at"]
        (Execute.workflow_model_dump false wf) := rfl

/-- Claim C7: after a successfully triggered remote execution, a failing
snapshot write is swallowed and the remote execution id is still returned;
a successful snapshot write stores a run row whose snapshot is the full JSON
serialization of the Workflow with exactly the `created_at` and `updated_at`
fields removed, and whose status is initialized to `running`. -/
theorem claim_C7 (wf : Execute.WorkflowModelP) (args : List (String × JValue))
    (user_id : Int) (execution_id : String) (now : Timestamp) :
    Execute.execute_workflow wf args user_id execution_id true now = (execution_id, none)
  ∧ (Execute.execute_workflow wf args user_id execution_id false now).1 = execution_id
  ∧ ((Execute.execute_workflow wf args user_id execution_id false now).2.map
       (fun r => r.workflow_snapshot)) =
      some (Execute.exclude_keys ["created_at", "updated_at"]
        (Execute.workflow_model_dump false wf))
  ∧ ((Execute.execute_workflow wf args user_id execution_id false now).2.map
       (fun r => r.status)) = some WorkflowRunStatusEnum.running := by
  refine ⟨rfl, rfl, ?_, rfl⟩
  show some (Execute.workflow_model_dump true wf) = _
  rw [execute_dump_exclude]

/-- Claim C8: `batch_execute` returns exactly one result per input row, in
input order; the result at each position is the independent processing of
that row alone (so no row's failure aborts the batch), it carries that row's
original row index, and a failing row yields a `FAILED` result carrying an
error message while a succeeding row yields `SUCCESS`. -/
theorem claim_C8 (env : Batch.BatchEnv) (items : List Batch.BatchItem) :
    (Batch.batch_execute_workflow env items).length = items.length
  ∧ (∀ i : Nat, (Batch.batch_execute_workflow env items)[i]? =
      (items[i]?).map (Batch.process_row env))
  ∧ (∀ item, (Batch.process_row env item).row_index = item.row_index)
  ∧ (∀ item, (Batch.process_row env item).status = "SUCCESS"
      ∨ ((Batch.process_row env item).status = "FAILED"
          ∧ ((Batch.process_row env item).error).isSome = true)) := by
  refine ⟨by simp [Batch.batch_execute_workflow], ?_, ?_, ?_⟩
  · intro i
    simp [Batch.batch_execute_workflow]
  · intro item
    unfold Batch.process_row
    cases h : Batch.process_args env (lookupField item.args "workspace_id") item.args with
    | error msg => rfl
    | ok pargs => cases he : env.execute pargs <;> simp [he]
  · intro item
    unfold Batch.process_row
    cases h : Batch.process_args env (lookupField item.args "workspace_id") item.args with
    | error msg => right; exact ⟨rfl, rfl⟩
    | ok pargs =>
        cases he : env.execute pargs with
        | error er => right; simp [he]
        | ok eid => left; simp [he]

/-- Claim C9: `delete_by_id` attempts remote deregistration first; a
remote "already absent" (not-found) outcome is treated exactly like a
successful deregistration, after which the local row is deleted — so
deleting a workflow whose remote registration is already absent completes
without error and leaves no local record with that id — while a hard remote
failure propagates before any local deletion. -/
theorem claim_C9 (store : List Lifecycle.WfRow) (workflow_id r e : String) :
    Lifecycle.delete_by_id .notFound store workflow_id =
      Lifecycle.delete_by_id (.ok r) store workflow_id
  ∧ (Lifecycle.delete_by_id .notFound store workflow_id).2 =
      .ok ((Lifecycle.repo_delete store workflow_id).2)
  ∧ ((Lifecycle.delete_by_id .notFound store workflow_id).1.all
      (fun w => !(w.id == workflow_id))) = true
  ∧ Lifecycle.delete_by_id (.failure e) store workflow_id = (store, .error e) := by
  refine ⟨rfl, rfl, ?_, rfl⟩
  simp only [Lifecycle.delete_by_id, Lifecycle.delete_gcp_workflow, Lifecycle.repo_delete]
  rw [List.all_eq_true]
  intro w hw
  exact (List.mem_filter.mp hw).2
